import Mathlib

/-
Verification of the morphman automated-landmarking core (Bogunovic,
Piccinelli and Kjeldsberg centerline landmarking) against its
natural-language specification.

The Python source is shallowly embedded: scalar arrays (curvature, torsion,
arclength, coordinates) become lists or functions over ℚ, numpy index
arrays become lists of ℕ, Python dicts preserving insertion order become
association lists, fallible code (numpy exceptions, sys.exit) returns
Option, and loops that may diverge take an explicit fuel parameter, with
fuel exhaustion returning none.  Python floats are idealised as rationals.
-/

/-- Python list.remove(x): delete the first occurrence of x. -/
def pyRemove (l : List Nat) (x : Nat) : List Nat :=
  match l with
  | [] => []
  | a :: t => if a = x then t else a :: pyRemove t x

/-- Association list of named interface indices, in insertion order,
mirroring a Python dict mapping names to centerline indices. -/
abbrev Ifaces := List (String × Nat)

/- ## Bogunovic rule engine (morphman/misc/automated_landmarking.py) -/

/-- Backward scan of landmarking_bogunovic.find_interface:
`for i in range(start - 1, -1, -1): if theta[i] > tol: break` — the first
index below start (checked downward) whose turning angle exceeds tol.
Callers always pass start ≤ theta.length, so reads stay in bounds. -/
def scanBack (theta : List ℚ) (tol : ℚ) : Nat → Option Nat
  | 0 => none
  | i + 1 => if tol < theta.getD i 0 then some i else scanBack theta tol i

/-- Forward scan body: first index j, j+1, … below theta.length whose
angle exceeds tol; fuel is theta.length, enough to reach the end. -/
def scanFwdAux (theta : List ℚ) (tol : ℚ) : Nat → Nat → Option Nat
  | 0, _ => none
  | fuel + 1, j =>
    if h : j < theta.length then
      if tol < theta.get ⟨j, h⟩ then some j else scanFwdAux theta tol fuel (j + 1)
    else none

/-- Forward scan of find_interface: `for i in range(start - 1, theta.shape[0], 1)`.
Callers pass start ≥ 1 (the source passes index + 1). -/
def scanFwd (theta : List ℚ) (tol : ℚ) (start : Nat) : Option Nat :=
  scanFwdAux theta tol theta.length (start - 1)

/-- The interface point for a crossing between maxima i and i+1:
`((min_point_ids > start) * (min_point_ids < stop)).nonzero()[0].max()`
picks the last position whose minimum lies strictly between the two
bracketing curvature maxima; none models the numpy error on an empty
selection. -/
def lastMinBetween (minIds : List Nat) (a b : Nat) : Option Nat :=
  (minIds.filter (fun m => decide (a < m ∧ m < b))).getLast?

/-- Look up the bracketing maxima max_point_ids[i], max_point_ids[i+1] and
take the last curvature minimum strictly between them; none models the
IndexError / ValueError raised by the source. -/
def interfaceAt (maxIds minIds : List Nat) (i : Nat) : Option Nat :=
  match maxIds.get? i, maxIds.get? (i + 1) with
  | some a, some b => lastMinBetween minIds a b
  | _, _ => none

/-- One step of landmarking_bogunovic.find_interface.  Outer none models a
raised exception; `some none` models `return None` (the run aborts);
`some (some (i, ifc))` returns the stop index and the updated interface
dict.  For part inf_end a missing crossing falls back to interface 0. -/
def find_interface (theta : List ℚ) (maxIds minIds : List Nat) (ifc : Ifaces)
    (start : Nat) (backward : Bool) (tol : ℚ) (part : String) :
    Option (Option (Nat × Ifaces)) :=
  match (if backward then scanBack theta tol start else scanFwd theta tol start) with
  | some i =>
    match interfaceAt maxIds minIds i with
    | some m => some (some (i, ifc ++ [(part, m)]))
    | none => none
  | none =>
    if part = "sup_ant" then some none
    else if part ≠ "inf_end" then some none
    else some (some (0, ifc ++ [("inf_end", 0)]))

/-- Initial scan index of the Bogunovic run:
`(max_coronal_coordinate_id > max_point_ids).nonzero()[0].max()` — the last
position of max_point_ids whose maximum lies below the coronal extremum;
none models the numpy error when no such position exists. -/
def bogunovicStart (maxIds : List Nat) (c : Nat) : Option Nat :=
  ((List.range maxIds.length).filter (fun p => decide (maxIds.getD p 0 < c))).getLast?

/-- The four-step interface sequence of landmarking_bogunovic: ant_post
backward with tolerance 60 from the initial index, post_inf backward with
45 from ant_post's stop, inf_end backward with 110 from post_inf's stop
(its returned stop is discarded by the source), sup_ant forward with 45
from the initial index + 1.  Outer none: exception; some none: the run
returns None with no landmarks. -/
def bogunovic_interfaces (theta : List ℚ) (maxIds minIds : List Nat) (c : Nat) :
    Option (Option Ifaces) :=
  match bogunovicStart maxIds c with
  | none => none
  | some index =>
    match find_interface theta maxIds minIds [] index true 60 ("ant_post") with
    | none => none
    | some none => some none
    | some (some (s1, ifc1)) =>
      match find_interface theta maxIds minIds ifc1 s1 true 45 ("post_inf") with
      | none => none
      | some none => some none
      | some (some (s2, ifc2)) =>
        match find_interface theta maxIds minIds ifc2 s2 true 110 ("inf_end") with
        | none => none
        | some none => some none
        | some (some (_, ifc3)) =>
          match find_interface theta maxIds minIds ifc3 (index + 1) false 45 ("sup_ant") with
          | none => none
          | some none => some none
          | some (some (_, ifc4)) => some (some ifc4)

/-- Modelled from the claim's words, for comparison with
bogunovic_interfaces: every scan, including superior→anterior, starts from
the previous scan's stop index (so sup_ant scans forward from the
inf_end stop instead of from the initial index + 1). -/
def bogunovic_interfaces_claim (theta : List ℚ) (maxIds minIds : List Nat) (c : Nat) :
    Option (Option Ifaces) :=
  match bogunovicStart maxIds c with
  | none => none
  | some index =>
    match find_interface theta maxIds minIds [] index true 60 ("ant_post") with
    | none => none
    | some none => some none
    | some (some (s1, ifc1)) =>
      match find_interface theta maxIds minIds ifc1 s1 true 45 ("post_inf") with
      | none => none
      | some none => some none
      | some (some (s2, ifc2)) =>
        match find_interface theta maxIds minIds ifc2 s2 true 110 ("inf_end") with
        | none => none
        | some none => some none
        | some (some (s3, ifc3)) =>
          match find_interface theta maxIds minIds ifc3 s3 false 45 ("sup_ant") with
          | none => none
          | some none => some none
          | some (some (_, ifc4)) => some (some ifc4)

/- ## Saddle-point suppression (landmarking_bogunovic, lines 112-118) -/

/-- The saddle condition of the source: index distance below 5 and
curvature difference below 0.01. -/
def saddleCond (curv : Nat → ℚ) (i j : Nat) : Prop :=
  |(i : ℤ) - (j : ℤ)| < 5 ∧ |curv i - curv j| < 1 / 100

instance (curv : Nat → ℚ) (i j : Nat) : Decidable (saddleCond curv i j) := by
  unfold saddleCond; infer_instance

/-- Inner loop `for j in max_point_ids` of the saddle removal, iterated by
position k over the list it mutates, exactly as CPython does; fuel starts
at the list length, which bounds the number of iterations. -/
def saddleInnerF (curv : Nat → ℚ) (i : Nat) :
    Nat → List Nat → List Nat → Nat → List Nat × List Nat
  | 0, minL, maxL, _ => (minL, maxL)
  | fuel + 1, minL, maxL, k =>
    if h : k < maxL.length then
      let j := maxL.get ⟨k, h⟩
      if saddleCond curv i j then
        saddleInnerF curv i fuel
          (if i ∈ minL then pyRemove minL i else minL)
          (if j ∈ maxL then pyRemove maxL j else maxL) (k + 1)
      else
        saddleInnerF curv i fuel minL maxL (k + 1)
    else (minL, maxL)

/-- Outer loop `for i in min_point_ids` of the saddle removal, iterated by
position over the mutating list. -/
def saddleOuterF (curv : Nat → ℚ) :
    Nat → List Nat → List Nat → Nat → List Nat × List Nat
  | 0, minL, maxL, _ => (minL, maxL)
  | fuel + 1, minL, maxL, k =>
    if h : k < minL.length then
      let i := minL.get ⟨k, h⟩
      let r := saddleInnerF curv i maxL.length minL maxL 0
      saddleOuterF curv fuel r.1 r.2 (k + 1)
    else (minL, maxL)

/-- Saddle-point suppression of landmarking_bogunovic: remove min/max pairs
closer than 5 indices with curvature difference below 0.01, with CPython's
iterate-while-mutating list semantics. -/
def saddle_removal (curv : Nat → ℚ) (minL maxL : List Nat) : List Nat × List Nat :=
  saddleOuterF curv minL.length minL maxL 0

/- ## Coronal-coordinate extremum search -/

/-- scipy argrelextrema(z, np.less_equal) with the default clip mode:
indices whose value is ≤ both neighbours, boundary neighbours clipped. -/
def relExtremaLE (z : List ℚ) : List Nat :=
  (List.range z.length).filter (fun i =>
    decide (z.getD i 0 ≤ z.getD (i - 1) 0 ∧ z.getD i 0 ≤ z.getD (min (i + 1) (z.length - 1)) 0))

/-- scipy argrelextrema(z, np.greater_equal) with the default clip mode. -/
def relExtremaGE (z : List ℚ) : List Nat :=
  (List.range z.length).filter (fun i =>
    decide (z.getD (i - 1) 0 ≤ z.getD i 0 ∧ z.getD (min (i + 1) (z.length - 1)) 0 ≤ z.getD i 0))

/-- Least value among the ≤-relative extrema of z (none: numpy error on an
empty selection). -/
def minOfExtremaLE (z : List ℚ) : Option ℚ :=
  ((relExtremaLE z).map (fun i => z.getD i 0)).min?

/-- Greatest value among the ≥-relative extrema of z. -/
def maxOfExtremaGE (z : List ℚ) : Option ℚ :=
  ((relExtremaGE z).map (fun i => z.getD i 0)).max?

/-- Python z.tolist().index(v): first position holding value v. -/
def firstIndexOf (z : List ℚ) (v : ℚ) : Option Nat :=
  z.findIdx? (fun a => decide (a = v))

/-- get_maximum_coronal_coordinate (Bogunovic): take the least ≤-extremum
value's first index; accept iff its arclength lies within the FIXED
tolerance 30 of the curve end, else retry with the greatest ≥-extremum
under the same tolerance, else sys.exit(1) (modelled as some none). -/
def get_maximum_coronal_coordinate (L z : List ℚ) : Option (Option Nat) :=
  match L.getLast? with
  | none => none
  | some lastL =>
    match (minOfExtremaLE z).bind (firstIndexOf z) with
    | none => none
    | some id1 =>
      if |L.getD id1 0 - lastL| > 30 then
        match (maxOfExtremaGE z).bind (firstIndexOf z) with
        | none => none
        | some id2 =>
          if |L.getD id2 0 - lastL| > 30 then some none else some (some id2)
      else some (some id1)

/-- find_c4_c5_interface (Kjeldsberg): same search, but the tolerance is
length[-1] * 3 / 4 instead of the constant 30. -/
def find_c4_c5_interface (L z : List ℚ) : Option (Option Nat) :=
  match L.getLast? with
  | none => none
  | some lastL =>
    match (minOfExtremaLE z).bind (firstIndexOf z) with
    | none => none
    | some id1 =>
      if |L.getD id1 0 - lastL| > lastL * 3 / 4 then
        match (maxOfExtremaGE z).bind (firstIndexOf z) with
        | none => none
        | some id2 =>
          if |L.getD id2 0 - lastL| > lastL * 3 / 4 then some none else some (some id2)
      else some (some id1)

/- ## Piccinelli rule engine (morphman/misc/automated_landmarking.py) -/

/-- Inner loop of landmarking_piccinelli.find_interface: scan torsion
positions i (the precomputed range list rng) for the first adjacent pair
bracketing the curvature maximum c; the found flag suppresses further
emissions within the same scan, and startId records where the next scan
resumes.  Returns (interfaces, k, startId). -/
def picInner (torIds : List Nat) (c : Nat) :
    List Nat → Bool → Nat → Nat → Ifaces → Ifaces × Nat × Nat
  | [], _, k, startId, acc => (acc, k, startId)
  | i :: rest, found, k, startId, acc =>
    if torIds.getD i 0 < c ∧ c < torIds.getD (i + 1) 0 ∧ found = false then
      picInner torIds c rest true (k + 2) (i + 1)
        (acc ++ [("bend" ++ toString (k + 1), torIds.getD i 0),
                 ("bend" ++ toString (k + 2), torIds.getD (i + 1) 0)])
    else
      picInner torIds c rest found k startId acc

/-- Outer loop of landmarking_piccinelli.find_interface over the curvature
maxima, threading the bend counter k and the resume position startId. -/
def picOuter (torIds : List Nat) :
    List Nat → Nat → Nat → Ifaces → Ifaces
  | [], _, _, acc => acc
  | cmax :: cs, k, startId, acc =>
    let r := picInner torIds cmax
      (List.range' startId (torIds.length - 1 - startId)) false k startId acc
    picOuter torIds cs r.2.1 r.2.2 r.1

/-- landmarking_piccinelli.find_interface: for each curvature maximum, the
first adjacent torsion-maximum pair bracketing it yields two bend
interfaces; scanning resumes after the pair. -/
def piccinelli_find_interface (maxIds torIds : List Nat) : Ifaces :=
  picOuter torIds maxIds 0 0 []

/- ## Piccinelli filter stage (lines 289-324) -/

/-- The endpoint test `length[i] in length[-10:] or length[i] in length[:10]`:
the value at index i occurs among the last ten or first ten arclengths. -/
def endpointNear (L : List ℚ) (i : Nat) : Prop :=
  L.getD i 0 ∈ L.drop (L.length - 10) ∨ L.getD i 0 ∈ L.take 10

instance (L : List ℚ) (i : Nat) : Decidable (endpointNear L i) := by
  unfold endpointNear; infer_instance

/-- Endpoint filter `for i in max_point_ids: if near: max_point_ids.remove(i)`
with CPython's iterate-while-mutating semantics (position-based, so the
element after a removed one is skipped). -/
def endpointFilterF (L : List ℚ) : Nat → List Nat → Nat → List Nat
  | 0, ids, _ => ids
  | fuel + 1, ids, k =>
    if h : k < ids.length then
      let i := ids.get ⟨k, h⟩
      if endpointNear L i then endpointFilterF L fuel (pyRemove ids i) (k + 1)
      else endpointFilterF L fuel ids (k + 1)
    else ids

/-- Stage one of the Piccinelli filters: drop curvature maxima whose
arclength occurs within the first or last ten samples. -/
def endpoint_filter (L : List ℚ) (ids : List Nat) : List Nat :=
  endpointFilterF L ids.length ids 0

/-- The remove-list of the collapse stage: for each consecutive pair of ids
closer than 70 indices, the smaller-magnitude element is recorded, exactly
as the source's dist / remove_ids loops do. -/
def closeRemoveIdsGo (vals : Nat → ℚ) (ids : List Nat) : List Nat → List Nat
  | [] => []
  | i :: rest =>
    (if ((ids.getD (i + 1) 0 : ℤ) - (ids.getD i 0 : ℤ)) < 70 then
       [if vals (ids.getD (i + 1) 0) < vals (ids.getD i 0) then ids.getD (i + 1) 0
        else ids.getD i 0]
     else []) ++ closeRemoveIdsGo vals ids rest

/-- The ids removed by the collapse stage (one single pass over the
consecutive distances of ids). -/
def closeRemoveIds (vals : Nat → ℚ) (ids : List Nat) : List Nat :=
  closeRemoveIdsGo vals ids (List.range (ids.length - 1))

/-- The collapse stage: `[ID for ID in ids if ID not in remove_ids]`. -/
def collapseClose (vals : Nat → ℚ) (ids : List Nat) : List Nat :=
  ids.filter (fun x => decide (x ∉ closeRemoveIds vals ids))

/-- The full Piccinelli filter stage: endpoint-filter the curvature maxima,
then collapse close pairs of curvature maxima and, independently, of
torsion maxima (which get no endpoint filter). -/
def piccinelli_filter (L : List ℚ) (curv tors : Nat → ℚ)
    (maxIds torIds : List Nat) : List Nat × List Nat :=
  (collapseClose curv (endpoint_filter L maxIds), collapseClose tors torIds)

/- ## Landmark mapper (automated_landmarking_tools.map_landmarks) -/

/-- The dedup-and-renumber loop of map_landmarks for the kjeldsberg and
piccinelli algorithms: each landmark is mapped to its nearest original
centerline index; a landmark whose index was already seen is skipped,
otherwise it is emitted under the next dense name pre ++ k. -/
def mapDedup {P : Type} (pre : String) (closest : P → Nat) (getPoint : Nat → P) :
    List (String × P) → List Nat → Nat → List (String × P) → List (String × P)
  | [], _, _, mapped => mapped
  | (_, p) :: rest, ids, k, mapped =>
    let lid := closest p
    if lid ∈ ids then mapDedup pre closest getPoint rest ids k mapped
    else mapDedup pre closest getPoint rest (ids ++ [lid]) (k + 1)
      (mapped ++ [(pre ++ toString k, getPoint lid)])

/-- map_landmarks: kjeldsberg and piccinelli landmarks are deduplicated on
the mapped index and renamed densely (C1..Cm / bend1..bendm); bogunovic
landmarks keep every name and are mapped pointwise. -/
def map_landmarks {P : Type} (alg : String) (closest : P → Nat) (getPoint : Nat → P)
    (lms : List (String × P)) : List (String × P) :=
  if alg = "kjeldsberg" then mapDedup ("C") closest getPoint lms [] 1 []
  else if alg = "piccinelli" then mapDedup ("bend") closest getPoint lms [] 1 []
  else if alg = "bogunovic" then lms.map (fun kv => (kv.1, getPoint (closest kv.2)))
  else []

/-- First-occurrence deduplication of a list of mapped indices (the claim's
description of the mapper: a later landmark with an already-seen index is
dropped). -/
def firstDedup : List Nat → List Nat → List Nat
  | [], _ => []
  | a :: t, seen => if a ∈ seen then firstDedup t seen else a :: firstDedup t (seen ++ [a])

/-- Dense renaming pre ++ k, pre ++ (k+1), … of a list of mapped indices. -/
def renumber {P : Type} (pre : String) (getPoint : Nat → P) : Nat → List Nat → List (String × P)
  | _, [] => []
  | k, lid :: t => (pre ++ toString k, getPoint lid) :: renumber pre getPoint (k + 1) t

/-- The mapper as the specification words it: map every landmark to its
nearest index, keep the first occurrence of each index in order, renumber
densely from 1. -/
def dedupSpec {P : Type} (pre : String) (closest : P → Nat) (getPoint : Nat → P)
    (lms : List (String × P)) : List (String × P) :=
  renumber pre getPoint 1 (firstDedup (lms.map (fun kv => closest kv.2)) [])

/-- The full Piccinelli landmark pipeline from filtered maxima: build the
bend interfaces, read each interface point off the working line (g0), then
map onto the original centerline (closest / getPoint). -/
def piccinelli_landmarks {P : Type} (maxIds torIds : List Nat)
    (g0 : Nat → P) (closest : P → Nat) (getPoint : Nat → P) : List (String × P) :=
  map_landmarks ("piccinelli") closest getPoint
    ((piccinelli_find_interface maxIds torIds).map (fun kv => (kv.1, g0 kv.2)))

/- ## Kjeldsberg rule engine (automated_landmarking_kjeldsberg.py) -/

/-- A 3-vector (Frenet tangent sample) with rational coordinates. -/
structure Vec3 where
  x : ℚ
  y : ℚ
  z : ℚ
deriving DecidableEq

/-- Dot product of two tangents. -/
def dot3 (a b : Vec3) : ℚ := a.x * b.x + a.y * b.y + a.z * b.z

/-- Squared euclidean norm of a tangent. -/
def norm2 (a : Vec3) : ℚ := dot3 a a

/-- The source's test `arccos(|t1·t2| / (‖t1‖‖t2‖)) * 180 / π < 60`.  Since
arccos is strictly decreasing and cos 60° = 1/2, for nonzero tangents the
test is equivalent to 2|t1·t2| > ‖t1‖‖t2‖, i.e. after squaring both
nonnegative sides, 4(t1·t2)² > ‖t1‖²‖t2‖². -/
def alphaLt60 (a b : Vec3) : Prop :=
  norm2 a * norm2 b < 4 * dot3 a b ^ 2

instance (a b : Vec3) : Decidable (alphaLt60 a b) := by
  unfold alphaLt60; infer_instance

/-- adjust_c1_c2_interface's loop
`while alpha < 60 and c1_c2 > 0: c1_c2 = int(c1_c2 * 0.95)`, with
int(c * 0.95) realised on ℕ as c * 95 / 100 (floor).  The index strictly
decreases while positive, so fuel = start + 1 always suffices. -/
def adjust_c1_c2_go (tangent : Nat → Vec3) (t23 : Vec3) : Nat → Nat → Nat
  | 0, c => c
  | fuel + 1, c =>
    if alphaLt60 (tangent c) t23 ∧ 0 < c then
      adjust_c1_c2_go tangent t23 fuel (c * 95 / 100)
    else c

/-- adjust_c1_c2_interface: shrink the C1-C2 index toward the curve start
until the tangent angle to the C2-C3 interface reaches 60° or index 0 is
hit.  (The source's final `if c1_c2 < 0` clamp is vacuous on ℕ.) -/
def adjust_c1_c2_interface (tangent : Nat → Vec3) (c1_c2 c2_c3 : Nat) : Nat :=
  adjust_c1_c2_go tangent (tangent c2_c3) (c1_c2 + 1) c1_c2

/-- adjust_c2_c3_interface's loop `while alpha < 60: c2_c3 = int(c2_c3 * 0.95)`.
Unlike adjust_c1_c2_interface there is NO index-0 guard, so the loop can run
forever; fuel exhaustion returns none. -/
def adjust_c2_c3_go (tangent : Nat → Vec3) (t34 : Vec3) : Nat → Nat → Option Nat
  | 0, c => if alphaLt60 (tangent c) t34 then none else some c
  | fuel + 1, c =>
    if alphaLt60 (tangent c) t34 then adjust_c2_c3_go tangent t34 fuel (c * 95 / 100)
    else some c

/-- adjust_c2_c3_interface terminates on the given input: some fuel makes
the fuel-indexed loop return. -/
def adjust_c2_c3_terminates (tangent : Nat → Vec3) (c2_c3 c3_c4 : Nat) : Prop :=
  ∃ fuel r, adjust_c2_c3_go tangent (tangent c3_c4) fuel c2_c3 = some r

/-- Python sequence indexing with negative-wrap semantics: l[i] is l.get i
for 0 ≤ i < len, l.get (len + i) for -len ≤ i < 0, IndexError otherwise. -/
def pyGet (l : List ℚ) (i : ℤ) : Option ℚ :=
  if 0 ≤ i then l.get? i.toNat
  else if -(l.length : ℤ) ≤ i then l.get? ((l.length : ℤ) + i).toNat
  else none

/-- Loop condition of adjust_c5_c6_interface, reading the three arclengths
it needs: len_c6 * 2 / 3 < len_c5 with len_c6 = |length[c6_c7] - length[c5_c6]|
and len_c5 = |length[c5_c6] - length[c4_c5]|; none models an IndexError. -/
def c5c6Cond (L : List ℚ) (c4_c5 c6_c7 c5_c6 : ℤ) : Option Bool :=
  match pyGet L c6_c7, pyGet L c5_c6, pyGet L c4_c5 with
  | some l67, some l56, some l45 => some (decide (|l67 - l56| * 2 / 3 < |l56 - l45|))
  | _, _, _ => none

/-- adjust_c5_c6_interface's loop: while the condition holds, move c5_c6
back by int(0.1 * (c5_c6 - c4_c5)), realised as ℤ truncating division by
10 (Python's int() truncates toward zero). -/
def adjust_c5_c6_go (L : List ℚ) (c4_c5 c6_c7 : ℤ) : Nat → ℤ → Option ℤ
  | 0, c5_c6 =>
    match c5c6Cond L c4_c5 c6_c7 c5_c6 with
    | some false => some c5_c6
    | _ => none
  | fuel + 1, c5_c6 =>
    match c5c6Cond L c4_c5 c6_c7 c5_c6 with
    | some true => adjust_c5_c6_go L c4_c5 c6_c7 fuel (c5_c6 - (c5_c6 - c4_c5).tdiv 10)
    | some false => some c5_c6
    | none => none

/-- adjust_c5_c6_interface with explicit fuel. -/
def adjust_c5_c6_interface (L : List ℚ) (c4_c5 c5_c6 c6_c7 : ℤ) (fuel : Nat) : Option ℤ :=
  adjust_c5_c6_go L c4_c5 c6_c7 fuel c5_c6

/-- Loop condition of adjust_c6_c7_interface: len_c6 < len_c7 with
len_c7 = |length[-1] - length[c6_c7]|. -/
def c6c7Cond (L : List ℚ) (c5_c6 c6_c7 : ℤ) : Option Bool :=
  match pyGet L c6_c7, pyGet L c5_c6, L.getLast? with
  | some l67, some l56, some llast => some (decide (|l67 - l56| < |llast - l67|))
  | _, _, _ => none

/-- adjust_c6_c7_interface's loop: while len_c6 < len_c7, move c6_c7
forward by int(0.1 * (c6_c7 - c5_c6)). -/
def adjust_c6_c7_go (L : List ℚ) (c5_c6 : ℤ) : Nat → ℤ → Option ℤ
  | 0, c6_c7 =>
    match c6c7Cond L c5_c6 c6_c7 with
    | some false => some c6_c7
    | _ => none
  | fuel + 1, c6_c7 =>
    match c6c7Cond L c5_c6 c6_c7 with
    | some true => adjust_c6_c7_go L c5_c6 fuel (c6_c7 + (c6_c7 - c5_c6).tdiv 10)
    | some false => some c6_c7
    | none => none

/-- adjust_c6_c7_interface with explicit fuel. -/
def adjust_c6_c7_interface (L : List ℚ) (c5_c6 c6_c7 : ℤ) (fuel : Nat) : Option ℤ :=
  adjust_c6_c7_go L c5_c6 fuel c6_c7

/-- The interface dict built by landmarking_kjeldsberg (lines 121-129)
from the degeneracy flags and the six interface indices. -/
def kjeldsberg_interfaces (veryShort shortM : Bool)
    (c1_c2 c2_c3 c3_c4 c4_c5 c5_c6 c6_c7 : Nat) : Ifaces :=
  if veryShort then
    [("C4", c3_c4), ("C5", c4_c5), ("C6", c5_c6), ("C7", c6_c7)]
  else if shortM then
    [("C3", c2_c3), ("C4", c3_c4), ("C5", c4_c5), ("C6", c5_c6), ("C7", c6_c7)]
  else if c1_c2 = 0 then
    [("C2", c1_c2), ("C3", c2_c3), ("C4", c3_c4), ("C5", c4_c5), ("C6", c5_c6), ("C7", c6_c7)]
  else
    [("C1", 0), ("C2", c1_c2), ("C3", c2_c3), ("C4", c3_c4), ("C5", c4_c5), ("C6", c5_c6), ("C7", c6_c7)]

/-- The returned Kjeldsberg landmark set: interface points read off the
working line (g0) and then mapped (and renamed) by map_landmarks. -/
def kjeldsberg_landmarks {P : Type} (veryShort shortM : Bool)
    (c1_c2 c2_c3 c3_c4 c4_c5 c5_c6 c6_c7 : Nat)
    (g0 : Nat → P) (closest : P → Nat) (getPoint : Nat → P) : List (String × P) :=
  map_landmarks ("kjeldsberg") closest getPoint
    ((kjeldsberg_interfaces veryShort shortM c1_c2 c2_c3 c3_c4 c4_c5 c5_c6 c6_c7).map
      (fun kv => (kv.1, g0 kv.2)))

/-- Python truthiness of an optional divergence id: None and 0 are falsy. -/
def pyTruthyOpt : Option ℤ → Bool
  | none => false
  | some k => decide (k ≠ 0)

/-- mark_diverging_arteries' classification flag
`True if ophthalmic_div_id or p_com_div_id is not None else False`, which
Python parses as `ophthalmic_div_id or (p_com_div_id is not None)`. -/
def classify_with_diverging_arteries (oph pcom : Option ℤ) : Bool :=
  pyTruthyOpt oph || pcom.isSome

/- ## Concrete inputs used by counterexamples and witnesses -/

/-- Turning-angle array of the Bogunovic counterexample run. -/
def thetaC : List ℚ := [48, 120, 50, 70, 46]

/-- Curvature-maximum indices of the Bogunovic counterexample run. -/
def maxIdsC : List Nat := [2, 4, 6, 8, 10, 12]

/-- Curvature-minimum indices of the Bogunovic counterexample run. -/
def minIdsC : List Nat := [3, 5, 7, 9, 11]

/-- Arclength array for the coronal-extremum counterexample. -/
def lengthC4 : List ℚ := [0, 65, 70, 80, 90, 95, 100]

/-- Coronal coordinate for the coronal-extremum counterexample. -/
def zC4 : List ℚ := [5, 0, 6, 2, 7, 3, 8]

/-- Identically-zero curvature signal. -/
def zeroCurv : Nat → ℚ := fun _ => 0

/-- Curvature signal whose values at 3 and elsewhere differ by 0.005. -/
def curvW5 : Nat → ℚ := fun n => if n = 3 then 1 / 200 else 0

/-- An increasing arclength array with unit spacing, 11 samples. -/
def L11 : List ℚ := [0, 1, 2, 3, 4, 5, 6, 7, 8, 9, 10]

/-- An increasing arclength array with unit spacing, 40 samples. -/
def L40 : List ℚ := (List.range 40).map (fun n => (n : ℚ))

/-- Curvature signal peaking at index 5, for the Piccinelli filter
counterexample. -/
def curvC9 : Nat → ℚ := fun n => if n = 5 then 2 else 1

/-- A constant tangent field: every angle between samples is 0°. -/
def constTan : Nat → Vec3 := fun _ => ⟨1, 0, 0⟩

/-- A tangent field that turns 90° at index 0. -/
def tanW : Nat → Vec3 := fun n => if n = 0 then ⟨1, 0, 0⟩ else ⟨0, 1, 0⟩

/- ## Helper lemmas -/

theorem pyRemove_mem {l : List Nat} {x y : Nat} (hx : x ∈ l) (hxy : x ≠ y) :
    x ∈ pyRemove l y := by
  induction l with
  | nil => cases hx
  | cons a t ih =>
    rw [pyRemove]
    rcases List.mem_cons.mp hx with rfl | hxt
    · rw [if_neg hxy]; exact List.mem_cons_self x _
    · by_cases hay : a = y
      · rw [if_pos hay]; exact hxt
      · rw [if_neg hay]; exact List.mem_cons_of_mem a (ih hxt)

theorem renumber_length {P : Type} (pre : String) (g : Nat → P) :
    ∀ (ids : List Nat) (k : Nat), (renumber pre g k ids).length = ids.length := by
  intro ids
  induction ids with
  | nil => intro k; rfl
  | cons a t ih => intro k; simp [renumber, ih (k + 1)]

theorem renumber_map_fst {P : Type} (pre : String) (g : Nat → P) :
    ∀ (ids : List Nat) (k : Nat),
      (renumber pre g k ids).map Prod.fst
        = (List.range ids.length).map (fun p => pre ++ toString (p + k)) := by
  intro ids
  induction ids with
  | nil => intro k; rfl
  | cons a t ih =>
    intro k
    simp only [renumber, List.map_cons, List.length_cons, List.range_succ_eq_map,
      List.map_map, ih (k + 1)]
    congr 1
    · simp
    · refine List.map_congr_left ?_
      intro p _
      simp only [Function.comp_apply]
      congr 2
      omega

theorem mapDedup_eq {P : Type} (pre : String) (closest : P → Nat) (g : Nat → P) :
    ∀ (lms : List (String × P)) (seen : List Nat) (k : Nat) (acc : List (String × P)),
      mapDedup pre closest g lms seen k acc
        = acc ++ renumber pre g k (firstDedup (lms.map (fun kv => closest kv.2)) seen) := by
  intro lms
  induction lms with
  | nil => intro seen k acc; simp [mapDedup, firstDedup, renumber]
  | cons hd t ih =>
    intro seen k acc
    obtain ⟨s, p⟩ := hd
    by_cases hmem : closest p ∈ seen
    · simp only [mapDedup, List.map_cons, firstDedup, if_pos hmem]
      exact ih seen k acc
    · simp only [mapDedup, List.map_cons, firstDedup, if_neg hmem, renumber]
      rw [ih (seen ++ [closest p]) (k + 1)]
      simp

theorem mem_closeRemoveIdsGo (vals : Nat → ℚ) (ids : List Nat) :
    ∀ (rng : List Nat) (i : Nat), i ∈ rng →
      ((ids.getD (i + 1) 0 : ℤ) - (ids.getD i 0 : ℤ)) < 70 →
      (if vals (ids.getD (i + 1) 0) < vals (ids.getD i 0) then ids.getD (i + 1) 0
        else ids.getD i 0) ∈ closeRemoveIdsGo vals ids rng := by
  intro rng
  induction rng with
  | nil => intro i hi; cases hi
  | cons a rest ih =>
    intro i hi hdist
    rw [closeRemoveIdsGo]
    rcases List.mem_cons.mp hi with rfl | hrest
    · exact List.mem_append_left _ (by rw [if_pos hdist]; exact List.mem_singleton_self _)
    · exact List.mem_append_right _ (ih i hrest hdist)

theorem not_mem_collapseClose {vals : Nat → ℚ} {ids : List Nat} {y : Nat}
    (hy : y ∈ closeRemoveIds vals ids) : y ∉ collapseClose vals ids := by
  intro hmem
  have h := (List.mem_filter.mp hmem).2
  exact (of_decide_eq_true h) hy

theorem endpointFilterF_mem (L : List ℚ) :
    ∀ (fuel : Nat) (ids : List Nat) (k x : Nat), x ∈ ids → ¬ endpointNear L x →
      x ∈ endpointFilterF L fuel ids k := by
  intro fuel
  induction fuel with
  | zero => intro ids k x hx _; exact hx
  | succ f ih =>
    intro ids k x hx hnear
    rw [endpointFilterF]
    by_cases h : k < ids.length
    · rw [dif_pos h]
      by_cases hn : endpointNear L (ids.get ⟨k, h⟩)
      · rw [if_pos hn]
        refine ih _ _ _ (pyRemove_mem hx ?_) hnear
        intro e
        exact hnear (e ▸ hn)
      · rw [if_neg hn]; exact ih _ _ _ hx hnear
    · rw [dif_neg h]; exact hx

/- ## Claim theorems -/

/-- C10: in the manual diverging-artery path the classification flag
follows the literal semantics of `a or b is not None`: it is true iff the
ophthalmic divergence id is a nonzero integer or the posterior-communicating
divergence id is not None; in particular it is false when the ophthalmic id
is 0 or None and the p-com id is None. -/
theorem C10_theorem : ∀ oph pcom : Option ℤ,
    (classify_with_diverging_arteries oph pcom = true ↔
      (∃ k, oph = some k ∧ k ≠ 0) ∨ pcom.isSome = true) ∧
    classify_with_diverging_arteries (some 0) none = false ∧
    classify_with_diverging_arteries none none = false := by
  intro oph pcom
  refine ⟨?_, rfl, rfl⟩
  cases oph with
  | none => simp [classify_with_diverging_arteries, pyTruthyOpt]
  | some k => simp [classify_with_diverging_arteries, pyTruthyOpt]

/-- C6: map_landmarks with algorithm piccinelli or kjeldsberg equals the
specification mapper — map each landmark to its nearest original index,
drop a later landmark whose index was already seen, renumber densely from
1 preserving first-occurrence order — while algorithm bogunovic keeps every
name verbatim (no deduplication) and only maps the points. -/
theorem C6_theorem {P : Type} (closest : P → Nat) (getPoint : Nat → P)
    (lms : List (String × P)) :
    map_landmarks ("piccinelli") closest getPoint lms
      = dedupSpec ("bend") closest getPoint lms ∧
    map_landmarks ("kjeldsberg") closest getPoint lms
      = dedupSpec ("C") closest getPoint lms ∧
    map_landmarks ("bogunovic") closest getPoint lms
      = lms.map (fun kv => (kv.1, getPoint (closest kv.2))) ∧
    (map_landmarks ("bogunovic") closest getPoint lms).map Prod.fst = lms.map Prod.fst := by
  refine ⟨?_, ?_, ?_, ?_⟩
  · rw [map_landmarks, if_neg (by decide), if_pos rfl, mapDedup_eq, dedupSpec,
      List.nil_append]
  · rw [map_landmarks, if_pos rfl, mapDedup_eq, dedupSpec, List.nil_append]
  · rw [map_landmarks, if_neg (by decide), if_neg (by decide), if_pos rfl]
  · rw [map_landmarks, if_neg (by decide), if_neg (by decide), if_pos rfl,
      List.map_map]
    rfl

/-- C2 counterexample: with filtered curvature maxima [50,150,250] and
torsion maxima [20,100,200,300] (identity point mapping), the Piccinelli
run returns FOUR landmarks — bend1=20, bend2=100, bend3=200, bend4=300 —
not the two entries bend1=100, bend2=200 the claim asserts. -/
theorem C2_counterexample :
    (piccinelli_landmarks [50, 150, 250] [20, 100, 200, 300]
      (fun n => n) (fun n => n) (fun n => n)).length = 4 ∧
    piccinelli_landmarks [50, 150, 250] [20, 100, 200, 300]
      (fun n => n) (fun n => n) (fun n => n)
      ≠ [("bend1", 100), ("bend2", 200)] := by
  decide

/-- C2 amended: with filtered curvature maxima [50,150,250] and torsion
maxima [20,100,200,300], every curvature maximum is bracketed (50 by
(20,100), 150 by (100,200), 250 by (200,300)), so after deduplication the
returned landmark set has exactly four entries: bend1, bend2, bend3, bend4
at the points of torsion indices 20, 100, 200 and 300. -/
theorem C2_theorem {P : Type} (g0 : Nat → P) (closest : P → Nat) (g : Nat → P)
    (h : ∀ n, closest (g0 n) = n) :
    piccinelli_landmarks [50, 150, 250] [20, 100, 200, 300] g0 closest g
      = [("bend1", g 20), ("bend2", g 100), ("bend3", g 200), ("bend4", g 300)] := by
  have hfi : piccinelli_find_interface [50, 150, 250] [20, 100, 200, 300]
      = [("bend1", 20), ("bend2", 100), ("bend3", 100), ("bend4", 200),
         ("bend5", 200), ("bend6", 300)] := by decide
  rw [piccinelli_landmarks, hfi, map_landmarks, if_neg (by decide), if_pos rfl]
  simp only [List.map_cons, List.map_nil]
  simp [mapDedup, h]
  decide

/-- C2 witness: the amended theorem evaluated with the identity mapping. -/
theorem C2_witness :
    piccinelli_landmarks [50, 150, 250] [20, 100, 200, 300]
      (fun n => n) (fun n => n) (fun n => n)
      = [("bend1", 20), ("bend2", 100), ("bend3", 200), ("bend4", 300)] :=
  C2_theorem (fun n => n) (fun n => n) (fun n => n) (fun _ => rfl)

/-- C3 counterexample: a very-short Kjeldsberg run with distinct interface
indices 1,2,3,4 (identity mapping) RETURNS landmark names C1,C2,C3,C4 —
not C4..C7 as claimed — because map_landmarks renames densely from C1;
moreover the pre-mapping interface dict contains C1 exactly when the C1-C2
index is NONZERO (here 5), the opposite of the claimed condition. -/
theorem C3_counterexample :
    (kjeldsberg_landmarks true false 0 0 1 2 3 4
      (fun n => n) (fun n => n) (fun n => n)).map Prod.fst = ["C1", "C2", "C3", "C4"] ∧
    (kjeldsberg_landmarks true false 0 0 1 2 3 4
      (fun n => n) (fun n => n) (fun n => n)).map Prod.fst ≠ ["C4", "C5", "C6", "C7"] ∧
    ("C1", (0 : Nat)) ∈ kjeldsberg_interfaces false false 5 6 7 8 9 10 ∧ (5 : Nat) ≠ 0 := by
  decide

/-- C3 amended: the pre-mapping interface dict has names C4..C7 when the
very-short flag is set, C3..C7 when the short flag is set, and otherwise
C2..C7 or C1..C7 with C1 present exactly when the C1-C2 interface did NOT
land at index 0; the returned landmark set is then renamed densely by
map_landmarks, so its names are always the initial segment C1..Cm of the
deduplicated landmark count. -/
theorem C3_theorem {P : Type} (vs sm : Bool) (c12 c23 c34 c45 c56 c67 : Nat)
    (g0 : Nat → P) (closest : P → Nat) (g : Nat → P) :
    ((kjeldsberg_interfaces vs sm c12 c23 c34 c45 c56 c67).map Prod.fst =
      if vs then ["C4", "C5", "C6", "C7"]
      else if sm then ["C3", "C4", "C5", "C6", "C7"]
      else if c12 = 0 then ["C2", "C3", "C4", "C5", "C6", "C7"]
      else ["C1", "C2", "C3", "C4", "C5", "C6", "C7"]) ∧
    (kjeldsberg_landmarks vs sm c12 c23 c34 c45 c56 c67 g0 closest g).map Prod.fst =
      (List.range (kjeldsberg_landmarks vs sm c12 c23 c34 c45 c56 c67 g0 closest g).length).map
        (fun p => ("C" : String) ++ toString (p + 1)) := by
  constructor
  · rw [kjeldsberg_interfaces]
    by_cases h1 : vs = true
    · rw [if_pos h1, if_pos h1]; rfl
    · rw [if_neg h1, if_neg h1]
      by_cases h2 : sm = true
      · rw [if_pos h2, if_pos h2]; rfl
      · rw [if_neg h2, if_neg h2]
        by_cases h3 : c12 = 0
        · rw [if_pos h3, if_pos h3]; rfl
        · rw [if_neg h3, if_neg h3]; rfl
  · rw [kjeldsberg_landmarks, map_landmarks, if_pos rfl, mapDedup_eq, List.nil_append,
      renumber_map_fst, renumber_length]

/-- C5 counterexample: with two curvature minima 1, 2 and one maximum 3,
all values equal, both pairs (1,3) and (2,3) satisfy the saddle condition,
yet the removal loop leaves minimum 2 in place (CPython's position-based
iteration skips it after removing 1), so not every qualifying pair is
removed. -/
theorem C5_counterexample :
    saddleCond zeroCurv 2 3 ∧ saddle_removal zeroCurv [1, 2] [3] = ([2], []) ∧
    2 ∈ (saddle_removal zeroCurv [1, 2] [3]).1 := by
  with_unfolding_all decide

/-- C5 amended: the saddle-removal loop iterates by position over the lists
it mutates in place, so a qualifying minimum that immediately follows a
removed one can survive; for a single min/max pair satisfying the saddle
condition (index distance below 5 and curvature difference below 0.01),
both indices are removed. -/
theorem C5_theorem (curv : Nat → ℚ) (i j : Nat) (h : saddleCond curv i j) :
    saddle_removal curv [i] [j] = ([], []) := by
  simp [saddle_removal, saddleOuterF, saddleInnerF, h, pyRemove]

/-- C5 witness: a pair three indices apart whose curvature values differ by
0.005 is fully removed. -/
theorem C5_witness : saddle_removal curvW5 [3] [6] = ([], []) :=
  C5_theorem curvW5 3 6 (by with_unfolding_all decide)

/-- C4 counterexample: on an input whose least coronal ≤-extremum sits 35
arclength units from the curve end (total length 100), Bogunovic's
get_maximum_coronal_coordinate rejects it (its tolerance is the constant
30) and returns the maximum-kind index 6, while Kjeldsberg's
find_c4_c5_interface — whose tolerance really is 3/4 of the total
length — accepts index 1, so the two searches differ and the claimed
common 3/4-tolerance is false for Bogunovic. -/
theorem C4_counterexample :
    get_maximum_coronal_coordinate lengthC4 zC4 = some (some 6) ∧
    find_c4_c5_interface lengthC4 zC4 = some (some 1) ∧
    get_maximum_coronal_coordinate lengthC4 zC4 ≠ find_c4_c5_interface lengthC4 zC4 := by
  with_unfolding_all decide

/-- C4 amended: both searches take the minimum-kind candidate first, retry
with the maximum-kind extremum on failure, and exit fatally when both
fail — but the acceptance tolerance is the constant 30 in Bogunovic's
get_maximum_coronal_coordinate and 3/4 of the total arclength in
Kjeldsberg's find_c4_c5_interface. -/
theorem C4_theorem (L z : List ℚ) (lastL : ℚ) (hL : L.getLast? = some lastL)
    (i1 i2 : Nat)
    (h1 : (minOfExtremaLE z).bind (firstIndexOf z) = some i1)
    (h2 : (maxOfExtremaGE z).bind (firstIndexOf z) = some i2) :
    (¬ |L.getD i1 0 - lastL| > 30 →
      get_maximum_coronal_coordinate L z = some (some i1)) ∧
    (|L.getD i1 0 - lastL| > 30 → ¬ |L.getD i2 0 - lastL| > 30 →
      get_maximum_coronal_coordinate L z = some (some i2)) ∧
    (|L.getD i1 0 - lastL| > 30 → |L.getD i2 0 - lastL| > 30 →
      get_maximum_coronal_coordinate L z = some none) ∧
    (¬ |L.getD i1 0 - lastL| > lastL * 3 / 4 →
      find_c4_c5_interface L z = some (some i1)) ∧
    (|L.getD i1 0 - lastL| > lastL * 3 / 4 → ¬ |L.getD i2 0 - lastL| > lastL * 3 / 4 →
      find_c4_c5_interface L z = some (some i2)) ∧
    (|L.getD i1 0 - lastL| > lastL * 3 / 4 → |L.getD i2 0 - lastL| > lastL * 3 / 4 →
      find_c4_c5_interface L z = some none) := by
  refine ⟨?_, ?_, ?_, ?_, ?_, ?_⟩
  · intro ha
    simp only [get_maximum_coronal_coordinate, hL, h1, if_neg ha]
  · intro ha hb
    simp only [get_maximum_coronal_coordinate, hL, h1, if_pos ha, h2, if_neg hb]
  · intro ha hb
    simp only [get_maximum_coronal_coordinate, hL, h1, if_pos ha, h2, if_pos hb]
  · intro ha
    simp only [find_c4_c5_interface, hL, h1, if_neg ha]
  · intro ha hb
    simp only [find_c4_c5_interface, hL, h1, if_pos ha, h2, if_neg hb]
  · intro ha hb
    simp only [find_c4_c5_interface, hL, h1, if_pos ha, h2, if_pos hb]

/-- C4 witness: the amended theorem's retry branch evaluated on the concrete
arrays: Bogunovic rejects the minimum candidate at distance 35 and accepts
the maximum candidate at distance 0. -/
theorem C4_witness : get_maximum_coronal_coordinate lengthC4 zC4 = some (some 6) :=
  (C4_theorem lengthC4 zC4 100 (by with_unfolding_all decide) 1 6
    (by with_unfolding_all decide) (by with_unfolding_all decide)).2.1
    (by with_unfolding_all decide) (by with_unfolding_all decide)

/-- C9 counterexample: with arclengths 0..39 and curvature maxima [3,5,20],
the endpoint filter removes 3 but — iterating by position over the list it
mutates — skips 5, and after the collapse stage (which removes 20, the
smaller-magnitude member of the close pair (5,20)) the final retained
curvature maximum is 5, which lies within 10 indices of the curve start. -/
theorem C9_counterexample :
    piccinelli_filter L40 curvC9 zeroCurv [3, 5, 20] [] = ([5], []) ∧
    endpointNear L40 5 := by
  with_unfolding_all decide

/-- C9 amended: the endpoint stage removes only near-endpoint curvature
maxima but, because it iterates by position over the list it mutates, may
retain some (every maximum that is NOT near an endpoint is certainly
retained); the collapse stage works on consecutive pairs of the filtered
list in one pass: for each consecutive pair closer than 70 indices the
smaller-magnitude element is dropped from the final curvature list, and
likewise for consecutive torsion-maximum pairs; non-consecutive close
pairs may both survive. -/
theorem C9_theorem (L : List ℚ) (curv tors : Nat → ℚ) (maxIds torIds : List Nat) :
    (∀ x, x ∈ maxIds → ¬ endpointNear L x → x ∈ endpoint_filter L maxIds) ∧
    (∀ i, i + 1 < (endpoint_filter L maxIds).length →
      (((endpoint_filter L maxIds).getD (i + 1) 0 : ℤ)
        - ((endpoint_filter L maxIds).getD i 0 : ℤ)) < 70 →
      (if curv ((endpoint_filter L maxIds).getD (i + 1) 0)
          < curv ((endpoint_filter L maxIds).getD i 0)
        then (endpoint_filter L maxIds).getD (i + 1) 0
        else (endpoint_filter L maxIds).getD i 0)
        ∉ (piccinelli_filter L curv tors maxIds torIds).1) ∧
    (∀ i, i + 1 < torIds.length →
      ((torIds.getD (i + 1) 0 : ℤ) - (torIds.getD i 0 : ℤ)) < 70 →
      (if tors (torIds.getD (i + 1) 0) < tors (torIds.getD i 0)
        then torIds.getD (i + 1) 0 else torIds.getD i 0)
        ∉ (piccinelli_filter L curv tors maxIds torIds).2) := by
  refine ⟨?_, ?_, ?_⟩
  · intro x hx hnear
    exact endpointFilterF_mem L _ _ _ _ hx hnear
  · intro i hi hdist
    have hmem : i ∈ List.range ((endpoint_filter L maxIds).length - 1) :=
      List.mem_range.mpr (by omega)
    exact not_mem_collapseClose
      (mem_closeRemoveIdsGo curv (endpoint_filter L maxIds) _ i hmem hdist)
  · intro i hi hdist
    have hmem : i ∈ List.range (torIds.length - 1) := List.mem_range.mpr (by omega)
    exact not_mem_collapseClose (mem_closeRemoveIdsGo tors torIds _ i hmem hdist)

/-- C9 witness: on the concrete filtered list [5, 20] the collapse stage
drops 20, the smaller-magnitude member of the close pair. -/
theorem C9_witness :
    (if curvC9 ((endpoint_filter L40 [3, 5, 20]).getD (0 + 1) 0)
        < curvC9 ((endpoint_filter L40 [3, 5, 20]).getD 0 0)
      then (endpoint_filter L40 [3, 5, 20]).getD (0 + 1) 0
      else (endpoint_filter L40 [3, 5, 20]).getD 0 0)
      ∉ (piccinelli_filter L40 curvC9 zeroCurv [3, 5, 20] []).1 :=
  (C9_theorem L40 curvC9 zeroCurv [3, 5, 20] []).2.1 0
    (by with_unfolding_all decide) (by with_unfolding_all decide)

/-- Postcondition of the adjust_c1_c2_interface loop body: with fuel above
the current index the loop always exits through its guard, so the result
meets the angle tolerance or is index 0. -/
theorem adjust_c1_c2_go_post (tangent : Nat → Vec3) (t23 : Vec3) :
    ∀ (fuel c : Nat), c < fuel →
      ¬ alphaLt60 (tangent (adjust_c1_c2_go tangent t23 fuel c)) t23 ∨
        adjust_c1_c2_go tangent t23 fuel c = 0 := by
  intro fuel
  induction fuel with
  | zero => intro c hc; omega
  | succ f ih =>
    intro c hc
    rw [adjust_c1_c2_go]
    by_cases hcond : alphaLt60 (tangent c) t23 ∧ 0 < c
    · rw [if_pos hcond]
      refine ih (c * 95 / 100) ?_
      have h100 : c * 95 / 100 < c :=
        (Nat.div_lt_iff_lt_mul (by norm_num : 0 < 100)).mpr (by omega)
      omega
    · rw [if_neg hcond]
      rcases Decidable.not_and_iff_or_not.mp hcond with h | h
      · exact Or.inl h
      · exact Or.inr (by omega)

/-- When the adjust_c2_c3_interface loop does return, the returned index
meets the angle tolerance. -/
theorem adjust_c2_c3_go_post (tangent : Nat → Vec3) (t34 : Vec3) :
    ∀ (fuel c r : Nat), adjust_c2_c3_go tangent t34 fuel c = some r →
      ¬ alphaLt60 (tangent r) t34 := by
  intro fuel
  induction fuel with
  | zero =>
    intro c r h
    rw [adjust_c2_c3_go] at h
    by_cases hcond : alphaLt60 (tangent c) t34
    · rw [if_pos hcond] at h; cases h
    · rw [if_neg hcond] at h
      cases h
      exact hcond
  | succ f ih =>
    intro c r h
    rw [adjust_c2_c3_go] at h
    by_cases hcond : alphaLt60 (tangent c) t34
    · rw [if_pos hcond] at h; exact ih _ _ h
    · rw [if_neg hcond] at h
      cases h
      exact hcond

/-- On a constant tangent field the adjust_c2_c3_interface loop never
exits: the angle between equal tangents is 0°, below the tolerance, for
every index the shrinking visits. -/
theorem adjust_c2_c3_const_none :
    ∀ (fuel c : Nat), adjust_c2_c3_go constTan (constTan 3) fuel c = none := by
  have halpha : ∀ c : Nat, alphaLt60 (constTan c) (constTan 3) := by
    intro c
    exact (by with_unfolding_all decide : alphaLt60 ⟨1, 0, 0⟩ ⟨1, 0, 0⟩)
  intro fuel
  induction fuel with
  | zero => intro c; rw [adjust_c2_c3_go, if_pos (halpha c)]
  | succ f ih => intro c; rw [adjust_c2_c3_go, if_pos (halpha c)]; exact ih _

/-- C8 counterexample: adjust_c2_c3_interface does NOT terminate for every
tangent array and start index — on a constant tangent field the tangent
angle stays at 0° for every index, including 0, and the loop (which has no
index-0 guard) runs forever. -/
theorem C8_counterexample : ¬ adjust_c2_c3_terminates constTan 5 3 := by
  rintro ⟨fuel, r, h⟩
  rw [adjust_c2_c3_const_none fuel 5] at h
  cases h

/-- C8 amended: adjust_c1_c2_interface (whose loop guard includes
c1_c2 > 0) terminates for every tangent array and start index, returning
an index that meets the 60° tolerance toward the downstream interface or
has reached 0; adjust_c2_c3_interface has no index-0 guard and need not
terminate, but whenever it does return, the returned index meets the
tolerance. -/
theorem C8_theorem (tangent : Nat → Vec3) (a b : Nat) :
    (¬ alphaLt60 (tangent (adjust_c1_c2_interface tangent a b)) (tangent b) ∨
      adjust_c1_c2_interface tangent a b = 0) ∧
    (∀ fuel r, adjust_c2_c3_go tangent (tangent b) fuel a = some r →
      ¬ alphaLt60 (tangent r) (tangent b)) := by
  constructor
  · exact adjust_c1_c2_go_post tangent (tangent b) (a + 1) a (Nat.lt_succ_self a)
  · intro fuel r h
    exact adjust_c2_c3_go_post tangent (tangent b) fuel a r h

/-- C8 witness: on a tangent field turning 90° at index 0, the
adjust_c2_c3_interface loop returns index 0, which meets the tolerance. -/
theorem C8_witness : ¬ alphaLt60 (tanW 0) (tanW 3) :=
  (C8_theorem tanW 5 3).2 5 0 (by with_unfolding_all decide)

/-- A successful pyGet at a nonnegative index is a list lookup. -/
theorem pyGet_some_nonneg {l : List ℚ} {i : ℤ} {v : ℚ} (hi : 0 ≤ i)
    (h : pyGet l i = some v) : ∃ hn : i.toNat < l.length, l.get ⟨i.toNat, hn⟩ = v := by
  rw [pyGet, if_pos hi] at h
  exact List.get?_eq_some.mp h

/-- Reads of a sorted arclength array are monotone in the index (for
nonnegative indices). -/
theorem pyGet_mono {l : List ℚ} (hm : l.Sorted (· ≤ ·)) {i j : ℤ} {a b : ℚ}
    (hi : 0 ≤ i) (hij : i ≤ j) (ha : pyGet l i = some a) (hb : pyGet l j = some b) :
    a ≤ b := by
  obtain ⟨hni, hga⟩ := pyGet_some_nonneg hi ha
  obtain ⟨hnj, hgb⟩ := pyGet_some_nonneg (le_trans hi hij) hb
  subst hga
  subst hgb
  rcases lt_or_eq_of_le (Int.toNat_le_toNat hij) with hlt | heq
  · exact List.pairwise_iff_get.mp hm ⟨i.toNat, hni⟩ ⟨j.toNat, hnj⟩ hlt
  · have : (⟨i.toNat, hni⟩ : Fin l.length) = ⟨j.toNat, hnj⟩ := Fin.ext heq
    rw [this]

/-- Inversion of the adjust_c5_c6 loop condition: a defined condition means
all three arclength reads succeeded. -/
theorem c5c6Cond_some {L : List ℚ} {a b c : ℤ} {bo : Bool}
    (h : c5c6Cond L a b c = some bo) :
    ∃ l67 l56 l45, pyGet L b = some l67 ∧ pyGet L c = some l56 ∧ pyGet L a = some l45 ∧
      bo = decide (|l67 - l56| * 2 / 3 < |l56 - l45|) := by
  unfold c5c6Cond at h
  cases h67 : pyGet L b with
  | none => simp [h67] at h
  | some l67 =>
    cases h56 : pyGet L c with
    | none => simp [h67, h56] at h
    | some l56 =>
      cases h45 : pyGet L a with
      | none => simp [h67, h56, h45] at h
      | some l45 =>
        simp only [h67, h56, h45, Option.some.injEq] at h
        exact ⟨l67, l56, l45, rfl, rfl, rfl, h.symm⟩

/-- Inversion of the adjust_c6_c7 loop condition. -/
theorem c6c7Cond_some {L : List ℚ} {a c : ℤ} {bo : Bool}
    (h : c6c7Cond L a c = some bo) :
    ∃ l67 l56 llast, pyGet L c = some l67 ∧ pyGet L a = some l56 ∧
      L.getLast? = some llast ∧ bo = decide (|l67 - l56| < |llast - l67|) := by
  unfold c6c7Cond at h
  cases h67 : pyGet L c with
  | none => simp [h67] at h
  | some l67 =>
    cases h56 : pyGet L a with
    | none => simp [h67, h56] at h
    | some l56 =>
      cases hlast : L.getLast? with
      | none => simp [h67, h56, hlast] at h
      | some llast =>
        simp only [h67, h56, hlast, Option.some.injEq] at h
        exact ⟨l67, l56, llast, rfl, rfl, rfl, h.symm⟩

/-- Whenever the adjust_c5_c6 loop returns, the result stays between c4_c5
and the initial c5_c6, and at the result the loop condition fails: the C6
arclength span times 2/3 is at least the C5 span. -/
theorem adjust_c5_c6_spec (L : List ℚ) (a b : ℤ) :
    ∀ (fuel : Nat) (c c5' : ℤ), adjust_c5_c6_go L a b fuel c = some c5' →
      (a ≤ c → a ≤ c5' ∧ c5' ≤ c) ∧
      ∃ l67 l5 l45, pyGet L b = some l67 ∧ pyGet L c5' = some l5 ∧
        pyGet L a = some l45 ∧ ¬ (|l67 - l5| * 2 / 3 < |l5 - l45|) := by
  intro fuel
  induction fuel with
  | zero =>
    intro c c5' h
    rw [adjust_c5_c6_go] at h
    cases hC : c5c6Cond L a b c with
    | none => simp [hC] at h
    | some bo =>
      cases bo with
      | true => simp [hC] at h
      | false =>
        simp only [hC, Option.some.injEq] at h
        subst h
        obtain ⟨l67, l56, l45, e1, e2, e3, e4⟩ := c5c6Cond_some hC
        exact ⟨fun hac => ⟨hac, le_refl c⟩,
          l67, l56, l45, e1, e2, e3, of_decide_eq_false e4.symm⟩
  | succ f ih =>
    intro c c5' h
    rw [adjust_c5_c6_go] at h
    cases hC : c5c6Cond L a b c with
    | none => simp [hC] at h
    | some bo =>
      cases bo with
      | false =>
        simp only [hC, Option.some.injEq] at h
        subst h
        obtain ⟨l67, l56, l45, e1, e2, e3, e4⟩ := c5c6Cond_some hC
        exact ⟨fun hac => ⟨hac, le_refl c⟩,
          l67, l56, l45, e1, e2, e3, of_decide_eq_false e4.symm⟩
      | true =>
        simp only [hC] at h
        have spec := ih _ _ h
        refine ⟨?_, spec.2⟩
        intro hac
        have ht1 : 0 ≤ (c - a).tdiv 10 := Int.tdiv_nonneg (by omega) (by norm_num)
        have ht2 : (c - a).tdiv 10 ≤ c - a := by
          rw [Int.tdiv_eq_ediv (by omega) (by norm_num)]
          exact Int.ediv_le_self 10 (by omega)
        have hbounds := spec.1 (by omega)
        exact ⟨hbounds.1, by omega⟩

/-- Whenever the adjust_c6_c7 loop returns, the result is at least the
initial c6_c7, and at the result the loop condition fails: the C6 span is
at least the C7 span. -/
theorem adjust_c6_c7_spec (L : List ℚ) (a : ℤ) :
    ∀ (fuel : Nat) (c c6' : ℤ), adjust_c6_c7_go L a fuel c = some c6' →
      (a ≤ c → c ≤ c6') ∧
      ∃ l6 l5 llast, pyGet L c6' = some l6 ∧ pyGet L a = some l5 ∧
        L.getLast? = some llast ∧ ¬ (|l6 - l5| < |llast - l6|) := by
  intro fuel
  induction fuel with
  | zero =>
    intro c c6' h
    rw [adjust_c6_c7_go] at h
    cases hC : c6c7Cond L a c with
    | none => simp [hC] at h
    | some bo =>
      cases bo with
      | true => simp [hC] at h
      | false =>
        simp only [hC, Option.some.injEq] at h
        subst h
        obtain ⟨l67, l56, llast, e1, e2, e3, e4⟩ := c6c7Cond_some hC
        exact ⟨fun _ => le_refl c, l67, l56, llast, e1, e2, e3, of_decide_eq_false e4.symm⟩
  | succ f ih =>
    intro c c6' h
    rw [adjust_c6_c7_go] at h
    cases hC : c6c7Cond L a c with
    | none => simp [hC] at h
    | some bo =>
      cases bo with
      | false =>
        simp only [hC, Option.some.injEq] at h
        subst h
        obtain ⟨l67, l56, llast, e1, e2, e3, e4⟩ := c6c7Cond_some hC
        exact ⟨fun _ => le_refl c, l67, l56, llast, e1, e2, e3, of_decide_eq_false e4.symm⟩
      | true =>
        simp only [hC] at h
        have spec := ih _ _ h
        refine ⟨?_, spec.2⟩
        intro hac
        have ht1 : 0 ≤ (c - a).tdiv 10 := Int.tdiv_nonneg (by omega) (by norm_num)
        have hb := spec.1 (by omega)
        omega

/-- C7: whenever the Kjeldsberg length-ratio adjustment loops
(adjust_c5_c6_interface then adjust_c6_c7_interface) both return — on a
sorted arclength array with ordered interfaces 0 ≤ c4_c5 ≤ c5_c6 ≤ c6_c7 —
the arclength of segment C6 is at least 2/3 of the arclength of segment C5
and at least the arclength of segment C7 (ε = 0). -/
theorem C7_theorem (L : List ℚ) (hm : L.Sorted (· ≤ ·)) (c4_c5 c5_c6 c6_c7 : ℤ)
    (h0 : 0 ≤ c4_c5) (h1 : c4_c5 ≤ c5_c6) (h2 : c5_c6 ≤ c6_c7)
    (fuel1 fuel2 : Nat) (c5' c6' : ℤ)
    (r1 : adjust_c5_c6_interface L c4_c5 c5_c6 c6_c7 fuel1 = some c5')
    (r2 : adjust_c6_c7_interface L c5' c6_c7 fuel2 = some c6')
    (l45 l5 l6 llast : ℚ)
    (e45 : pyGet L c4_c5 = some l45) (e5 : pyGet L c5' = some l5)
    (e6 : pyGet L c6' = some l6) (elast : L.getLast? = some llast) :
    2 / 3 * |l5 - l45| ≤ |l6 - l5| ∧ |llast - l6| ≤ |l6 - l5| := by
  obtain ⟨hb1, l67m, l5a, l45a, f1, f2, f3, f4⟩ :=
    adjust_c5_c6_spec L c4_c5 c6_c7 fuel1 c5_c6 c5' r1
  obtain ⟨ha5, hle5⟩ := hb1 h1
  obtain ⟨hb2, l6a, l5b, llb, g1, g2, g3, g4⟩ :=
    adjust_c6_c7_spec L c5' fuel2 c6_c7 c6' r2
  have hv5 : l5a = l5 := Option.some.inj (f2.symm.trans e5)
  have hv45 : l45a = l45 := Option.some.inj (f3.symm.trans e45)
  have hv6 : l6a = l6 := Option.some.inj (g1.symm.trans e6)
  have hv5b : l5b = l5 := Option.some.inj (g2.symm.trans e5)
  have hvlast : llb = llast := Option.some.inj (g3.symm.trans elast)
  subst hv5; subst hv45; subst hv6; subst hv5b; subst hvlast
  have h5c67 : c5' ≤ c6_c7 := le_trans hle5 h2
  have hc67le : c6_c7 ≤ c6' := hb2 h5c67
  have h5nonneg : 0 ≤ c5' := le_trans h0 ha5
  have m1 : l5b ≤ l67m := pyGet_mono hm h5nonneg h5c67 f2 f1
  have m2 : l67m ≤ l6a := pyGet_mono hm (le_trans h5nonneg h5c67) hc67le f1 g1
  constructor
  · have ex1 : |l5b - l45a| ≤ |l67m - l5b| * 2 / 3 := not_lt.mp f4
    have habs1 : |l67m - l5b| = l67m - l5b := abs_of_nonneg (by linarith)
    have habs2 : |l6a - l5b| = l6a - l5b := abs_of_nonneg (by linarith)
    have hA : (0 : ℚ) ≤ |l5b - l45a| := abs_nonneg _
    rw [habs1] at ex1
    rw [habs2]
    linarith
  · exact not_lt.mp g4

/-- C7 witness: on the unit-spaced arclength array of 11 samples with
c4_c5 = 0, c5_c6 = 1, c6_c7 = 9 both loops exit immediately and the
invariant holds: 8 ≥ 2/3·1 and 8 ≥ 1. -/
theorem C7_witness :
    2 / 3 * |(1 : ℚ) - 0| ≤ |(9 : ℚ) - 1| ∧ |(10 : ℚ) - 9| ≤ |(9 : ℚ) - 1| :=
  C7_theorem L11 (by with_unfolding_all decide) 0 1 9 (by norm_num) (by norm_num)
    (by norm_num) 1 1 1 9 (by with_unfolding_all decide) (by with_unfolding_all decide)
    0 1 9 10 (by with_unfolding_all decide) (by with_unfolding_all decide)
    (by with_unfolding_all decide) (by with_unfolding_all decide)

/-- C1 counterexample: on the concrete run (theta = [48,120,50,70,46],
maxima [2,4,6,8,10,12], minima [3,5,7,9,11], coronal index 11) the source
places sup_ant at 11, scanning forward from the initial anterior index + 1,
while the claim's reading — every scan starts from the previous stop
index — places sup_ant at 3, scanning forward from the inf_end stop; the
two disagree, refuting the claimed chaining for the fourth scan. -/
theorem C1_counterexample :
    bogunovic_interfaces thetaC maxIdsC minIdsC 11 =
      some (some [("ant_post", 9), ("post_inf", 7), ("inf_end", 5), ("sup_ant", 11)]) ∧
    bogunovic_interfaces_claim thetaC maxIdsC minIdsC 11 =
      some (some [("ant_post", 9), ("post_inf", 7), ("inf_end", 5), ("sup_ant", 3)]) ∧
    bogunovic_interfaces thetaC maxIdsC minIdsC 11 ≠
      bogunovic_interfaces_claim thetaC maxIdsC minIdsC 11 := by
  with_unfolding_all decide

/-- C1 amended: the Bogunovic run applies ant_post (backward, 60°) from the
initial index, post_inf (backward, 45°) from ant_post's stop, inf_end
(backward, 110°) from post_inf's stop, and sup_ant (forward, 45°) from the
initial index + 1 (NOT from the inf_end stop); a missing inf_end crossing
falls back to interface 0 and the run continues, while a missing crossing
at ant_post, post_inf or sup_ant makes the run return None with no partial
landmark result. -/
theorem C1_theorem (theta : List ℚ) (maxIds minIds : List Nat) (c index : Nat)
    (hidx : bogunovicStart maxIds c = some index) :
    (scanBack theta 60 index = none →
      bogunovic_interfaces theta maxIds minIds c = some none) ∧
    (∀ s1 m1, scanBack theta 60 index = some s1 → interfaceAt maxIds minIds s1 = some m1 →
      scanBack theta 45 s1 = none →
      bogunovic_interfaces theta maxIds minIds c = some none) ∧
    (∀ s1 m1 s2 m2 s3 m3, scanBack theta 60 index = some s1 →
      interfaceAt maxIds minIds s1 = some m1 →
      scanBack theta 45 s1 = some s2 → interfaceAt maxIds minIds s2 = some m2 →
      scanBack theta 110 s2 = some s3 → interfaceAt maxIds minIds s3 = some m3 →
      scanFwd theta 45 (index + 1) = none →
      bogunovic_interfaces theta maxIds minIds c = some none) ∧
    (∀ s1 m1 s2 m2 s4 m4, scanBack theta 60 index = some s1 →
      interfaceAt maxIds minIds s1 = some m1 →
      scanBack theta 45 s1 = some s2 → interfaceAt maxIds minIds s2 = some m2 →
      scanBack theta 110 s2 = none →
      scanFwd theta 45 (index + 1) = some s4 → interfaceAt maxIds minIds s4 = some m4 →
      bogunovic_interfaces theta maxIds minIds c =
        some (some [("ant_post", m1), ("post_inf", m2), ("inf_end", 0), ("sup_ant", m4)])) ∧
    (∀ s1 m1 s2 m2 s3 m3 s4 m4, scanBack theta 60 index = some s1 →
      interfaceAt maxIds minIds s1 = some m1 →
      scanBack theta 45 s1 = some s2 → interfaceAt maxIds minIds s2 = some m2 →
      scanBack theta 110 s2 = some s3 → interfaceAt maxIds minIds s3 = some m3 →
      scanFwd theta 45 (index + 1) = some s4 → interfaceAt maxIds minIds s4 = some m4 →
      bogunovic_interfaces theta maxIds minIds c =
        some (some [("ant_post", m1), ("post_inf", m2), ("inf_end", m3), ("sup_ant", m4)])) := by
  refine ⟨?_, ?_, ?_, ?_, ?_⟩
  · intro hs1
    simp [bogunovic_interfaces, find_interface, hidx, hs1]
  · intro s1 m1 hs1 hm1 hs2
    simp [bogunovic_interfaces, find_interface, hidx, hs1, hm1, hs2]
  · intro s1 m1 s2 m2 s3 m3 hs1 hm1 hs2 hm2 hs3 hm3 hs4
    simp [bogunovic_interfaces, find_interface, hidx, hs1, hm1, hs2, hm2, hs3, hm3, hs4]
  · intro s1 m1 s2 m2 s4 m4 hs1 hm1 hs2 hm2 hs3 hs4 hm4
    simp [bogunovic_interfaces, find_interface, hidx, hs1, hm1, hs2, hm2, hs3, hs4, hm4]
  · intro s1 m1 s2 m2 s3 m3 s4 m4 hs1 hm1 hs2 hm2 hs3 hm3 hs4 hm4
    simp [bogunovic_interfaces, find_interface, hidx, hs1, hm1, hs2, hm2, hs3, hm3, hs4, hm4]

/-- C1 witness: the all-crossings-found case of the amended theorem
evaluated on the concrete run. -/
theorem C1_witness :
    bogunovic_interfaces thetaC maxIdsC minIdsC 11 =
      some (some [("ant_post", 9), ("post_inf", 7), ("inf_end", 5), ("sup_ant", 11)]) :=
  (C1_theorem thetaC maxIdsC minIdsC 11 4 (by with_unfolding_all decide)).2.2.2.2
    3 9 2 7 1 5 4 11
    (by with_unfolding_all decide) (by with_unfolding_all decide)
    (by with_unfolding_all decide) (by with_unfolding_all decide)
    (by with_unfolding_all decide) (by with_unfolding_all decide)
    (by with_unfolding_all decide) (by with_unfolding_all decide)
